import Mathlib

/-!
Verification of the libturms peer-session core: a shallow embedding of the
padding codec, the data-channel pipeline, the X3DH bootstrap, the WebRTC
send retry loop, the signalling tables, the JWT decoder, the discovery
websocket reference counter and the account singleton, together with
theorems settling the specification claims.

Bytes are modelled as `List Nat`; external crates (webrtc, vodozemac,
serde, blake3, jsonwebtoken signature checking) are modelled as oracles
passed in explicitly, while every control path of the repository code is
translated literally.
-/

namespace Turms

/-! ## Padding codec -/

/-- Modelled from the spec: `Padding::pad` is called from `channel.rs`
but is not defined under the sources (padding.rs contains only the unused
`fill_zero` routine).  Spec 4.1: the bucket size of a payload length n. -/
def bucket (n : Nat) : Nat :=
  if n ≤ 1000 then 1000
  else if n < 8192 then ((n + 1023) / 1024) * 1024
  else n

/-- Modelled from the spec: `Padding::pad` appends the 0x80 terminator and
then 0x00 bytes up to the bucket size of the payload length. -/
def pad (x : List Nat) : List Nat :=
  x ++ 0x80 :: List.replicate (bucket x.length - (x.length + 1)) 0

/-- Modelled from the spec: `Padding::unpad` scans from the tail, drops
trailing 0x00 bytes, consumes exactly one 0x80 and returns the remainder;
if no 0x80 is found before a non-zero byte the input is returned
unchanged (tolerant decode). -/
def unpad (d : List Nat) : List Nat :=
  match d.reverse.dropWhile (fun b => b == 0) with
  | b :: rest => if b == 0x80 then rest.reverse else d
  | [] => d

/-! ## Wire models (p2p/src/models.rs) -/

/-- Opaque Curve25519 public key bytes. -/
abbrev Key := List Nat

/-- Opaque vodozemac pre-key message bytes. -/
abbrev PreKeyMsg := List Nat

/-- Wire struct `X3DH`: identity public key plus optional one-time key and
optional pre-key message. -/
structure X3DH where
  public_key : Key
  otk : Option Key
  prekey : Option PreKeyMsg
  deriving DecidableEq

/-- Peer `User` model. -/
structure User where
  id : String
  username : String
  deriving DecidableEq

/-- Model of `Attachment` (flags as the raw u32 bitset). -/
structure Attachment where
  filename : String
  mime_type : Option String
  url : Option String
  blob : Option (List Nat)
  flags : Nat
  deriving DecidableEq

/-- Model of `Message` (timestamps as unix integers). -/
structure MessageData where
  author : User
  recipient : User
  content : String
  timestamp : Int
  edited_timestamp : Int
  reactions : List Char
  attachments : List Attachment
  flags : Nat
  deriving DecidableEq

/-- The tagged `Event` union carried on the data channel. -/
inductive Event where
  | DHKey (x : X3DH)
  | UserEv (u : User)
  | MessageEv (m : MessageData)
  | Typing
  deriving DecidableEq

/-! ## Cryptographic oracles

The vodozemac, blake3 and serde crates are external; their behaviour is
a parameter of the model.  Every control decision of the repository code
is taken on the oracle results exactly as the source does. -/

/-- A double-ratchet session: `decrypt` composes
`olm::Message::from_bytes` with `Session::decrypt` (`none` on either
failure), `pickled` models `serde_json::to_string(&session.pickle()).ok()`. -/
structure OlmSession where
  decrypt : List Nat → Option (List Nat)
  pickled : Option String

/-- Olm messages produced by `Session::encrypt`. -/
inductive OlmMessage where
  | PreKey (p : PreKeyMsg)
  | Normal (bytes : List Nat)

/-- Oracle bundle for the external cryptographic and codec calls. -/
structure Crypto where
  /-- Models `Account::create_outbound_session(config, remote_pk, otk)`. -/
  outbound : Key → Key → OlmSession
  /-- Models `Account::create_inbound_session(remote_pk, prekey)`; `none` is
  the `Err` branch. -/
  inbound : Key → PreKeyMsg → Option OlmSession
  /-- Models `session.encrypt("")` on a fresh outbound session. -/
  encryptEmpty : OlmMessage
  /-- Models `hex::encode(blake3::hash(pk)[..16])`. -/
  derivePeerId : Key → String
  /-- Models `serde_json::from_slice::<Event>` on unpadded bytes. -/
  decode : List Nat → Option Event
  /-- Models `serde_json::to_string(&event)` as bytes; `none` is the
  serialization `Err` branch. -/
  encode : Event → Option (List Nat)

/-! ## Data-channel message pipeline (libturms/src/channel.rs) -/

/-- Constant `MAX_MESSAGE_SIZE_IN_BYTES` from channel.rs. -/
def MAX_MESSAGE_SIZE_IN_BYTES : Nat := 1000 * 1000

/-- Mutable per-peer state touched by `handle_dhkey_event`: the ratchet
slot (`webrtc.session`) and the write-once peer id (`webrtc.peer_id`). -/
structure PeerState where
  session : Option OlmSession
  peer_id : Option String

/-- Models `OnceLock::set`: keeps the first value, later sets are discarded. -/
def onceSet (o : Option String) (v : String) : Option String :=
  match o with
  | some x => some x
  | none => some v

/-- Function `handle_dhkey_event` from channel.rs: otk branch installs an outbound
session and replies with a pre-key `DHKey`; prekey branch installs the
inbound session; the branchless case only logs.  Returns the new state
and the list of raw frames pushed to `webrtc.send`. -/
def handle_dhkey_event (c : Crypto) (identity : Key) (st : PeerState)
    (x : X3DH) : PeerState × List (List Nat) :=
  match x.otk with
  | some otk =>
    let session := c.outbound x.public_key otk
    let st' : PeerState :=
      { session := some session
        peer_id := onceSet st.peer_id (c.derivePeerId x.public_key) }
    match c.encryptEmpty with
    | OlmMessage.PreKey pk =>
      match c.encode (Event.DHKey ⟨identity, none, some pk⟩) with
      | some bytes => (st', [pad bytes])
      | none => (st', [])
    | OlmMessage.Normal _ => (st', [])
  | none =>
    match x.prekey with
    | some prekey =>
      match c.inbound x.public_key prekey with
      | some inbound =>
        ({ session := some inbound
           peer_id := onceSet st.peer_id (c.derivePeerId x.public_key) }, [])
      | none => (st, [])
    | none => (st, [])

/-- Outcome of the `on_message` data-channel callback. -/
inductive ChannelAction where
  | dropped
  | negotiated (x : X3DH)
  | forwarded (e : Event)

/-- The `on_message` closure installed by `handle_channel`: size gate,
decrypt when a ratchet is installed (failure drops), empty-payload drop,
unpad, JSON decode, then dispatch: `DHKey` is fed to the negotiator
regardless of encryption, every other event is forwarded only when the
frame was decrypted by the ratchet. -/
def on_message (c : Crypto) (session : Option OlmSession)
    (msg : List Nat) : ChannelAction :=
  if msg.length > MAX_MESSAGE_SIZE_IN_BYTES then ChannelAction.dropped
  else
    let step : Option (List Nat × Bool) :=
      match session with
      | some s =>
        match s.decrypt msg with
        | some d => some (d, true)
        | none => none
      | none => some (msg, false)
    match step with
    | none => ChannelAction.dropped
    | some (data, is_encrypted) =>
      if data.isEmpty then ChannelAction.dropped
      else
        match c.decode (unpad data) with
        | none => ChannelAction.dropped
        | some (Event.DHKey x) => ChannelAction.negotiated x
        | some e =>
          if is_encrypted then ChannelAction.forwarded e
          else ChannelAction.dropped

/-! ## X3DH on channel open (p2p/src/x3dh.rs, p2p/src/webrtc.rs) -/

/-- The first X3DH key message of the macro in x3dh.rs: the identity
Curve25519 public key plus the freshly generated one-time key. -/
structure FirstKeyMsg where
  public_key : Key
  otk : Key
  deriving DecidableEq

/-- The long-term account as seen by the x3dh macro: its identity key and
the one-time key that `generate_one_time_keys(1)` produces. -/
structure KeyAccount where
  identity : Key
  freshOtk : Key
  deriving DecidableEq

/-- The transport fields of `WebRTCManager` driving role election. -/
structure Transport where
  is_initiator : Bool
  offer : String
  deriving DecidableEq

/-- Models `WebRTCManager::init`: `is_initiator` starts false, offer empty. -/
def Transport.init : Transport :=
  { is_initiator := false, offer := "" }

/-- Models `WebRTCManager::create_offer`: stores the gathered local offer and
marks the transport as initiator (the external SDP is an oracle input). -/
def Transport.create_offer (t : Transport) (sdp : String) : Transport :=
  { t with offer := sdp, is_initiator := true }

/-- Models `WebRTCManager::connect`: applies the remote offer, clears
`is_initiator`, then creates the answer (oracle input `sdp`). -/
def Transport.connect (t : Transport) (sdp : String) : Transport :=
  { t with is_initiator := false, offer := sdp }

/-- The `triple_diffie_hellman!` macro body up to the send: the initiator
returns at once and emits nothing; the responder generates one one-time
key and builds the first `DHKey` message from its identity key and that
one-time key. -/
def triple_diffie_hellman (t : Transport) (a : KeyAccount) :
    Option FirstKeyMsg :=
  if t.is_initiator then none
  else some { public_key := a.identity, otk := a.freshOtk }

/-! ## Transport send retry loop (p2p/src/webrtc.rs) -/

/-- Constant `MAX_ATTEMPTS` from webrtc.rs. -/
def MAX_ATTEMPTS : Nat := 4

/-- Transport-level errors of `WebRTCManager::send`. -/
inductive SendError where
  | MessageSendFailed
  | DataChannelNotOpen
  deriving DecidableEq

/-- The `for n in 0..MAX_ATTEMPTS` body of `WebRTCManager::send`, with
`ok n` the oracle for whether attempt `n` of `channel.send` succeeds.
Returns the result, the number of attempts executed, and the list of
back-off sleeps (in seconds) performed before attempts.  The fuel
argument counts the remaining loop iterations. -/
def send_go (ok : Nat → Bool) : Nat → Nat → Except SendError Unit × Nat × List Nat
  | 0, _ => (Except.ok (), 0, [])
  | fuel + 1, n =>
    let sleeps := if 0 < n then [5 * n] else []
    if ok n then (Except.ok (), 1, sleeps)
    else if n = MAX_ATTEMPTS - 1 then
      (Except.error SendError.MessageSendFailed, 1, sleeps)
    else
      let r := send_go ok fuel (n + 1)
      (r.1, r.2.1 + 1, sleeps ++ r.2.2)

/-- Models `WebRTCManager::send`: without a data channel the call fails with
`ErrDataChannelNotOpen`; otherwise the retry loop runs from attempt 0. -/
def webrtc_send (hasChannel : Bool) (ok : Nat → Bool) :
    Except SendError Unit × Nat × List Nat :=
  if hasChannel then send_go ok MAX_ATTEMPTS 0
  else (Except.error SendError.DataChannelNotOpen, 0, [])

/-! ## Signalling tables (libturms/src/lib.rs) -/

/-- Errors surfaced by `Turms::incoming_answer`. -/
inductive TError where
  | MissingSessionId
  | SdpUnmarshal
  | WebRTC
  deriving DecidableEq

/-- The fields of a `WebRTCManager` entry the signalling machine reads:
the write-once peer id and the optional ratchet session. -/
structure Conn where
  peer_id : Option String
  session : Option OlmSession

/-- HashMap lookup on an association list (first binding wins). -/
def mapLookup (k : String) : List (String × Conn) → Option Conn
  | [] => none
  | (a, v) :: tl => if a = k then some v else mapLookup k tl

/-- HashMap remove: drops every binding of `k`. -/
def mapRemove (k : String) : List (String × Conn) → List (String × Conn)
  | [] => []
  | (a, v) :: tl =>
    if a = k then mapRemove k tl else (a, v) :: mapRemove k tl

/-- HashMap insert: overwrites any existing binding of `k`. -/
def mapInsert (k : String) (v : Conn) (m : List (String × Conn)) :
    List (String × Conn) :=
  (k, v) :: mapRemove k m

/-- The two peer tables of the `Turms` facade. -/
structure TState where
  queued_connection : List (String × Conn)
  peers_connection : List (String × Conn)

/-- The `Answer` payload of `SessionResult::Completed`. -/
structure Answer where
  peer_id : String
  session : Option String
  deriving DecidableEq

/-- An inbound answer SDP as the machine sees it: the session id its
`o=` line yields (`none` when unmarshalling fails) and the oracle outcome
of the external `set_remote_description` call. -/
structure SDPAnswer where
  sessionId : Option String
  remoteOk : Bool
  deriving DecidableEq

/-- Models `Turms::incoming_answer`: extract the session id; remove the queued
entry (missing id fails with `MissingSessionId`); on
`set_remote_description` failure re-insert the entry and surface the
error; on success build the `Answer` from the peer id (empty when unset)
and the pickled session, and insert the connection into the established
table under that peer id. -/
def incoming_answer (t : TState) (s : SDPAnswer) :
    TState × Except TError Answer :=
  match s.sessionId with
  | none => (t, Except.error TError.SdpUnmarshal)
  | some id =>
    match mapLookup id t.queued_connection with
    | none => (t, Except.error TError.MissingSessionId)
    | some conn =>
      if s.remoteOk then
        let peerId := (conn.peer_id).getD ""
        let answer : Answer :=
          { peer_id := peerId
            session := conn.session.bind (fun sess => sess.pickled) }
        ({ queued_connection := mapRemove id t.queued_connection
           peers_connection :=
             mapInsert peerId conn t.peers_connection },
         Except.ok answer)
      else
        ({ t with queued_connection :=
             mapInsert id conn (mapRemove id t.queued_connection) },
         Except.error TError.WebRTC)

/-! ## JWT decoding (discover/src/jwt.rs) -/

/-- JWT claims (times as unix seconds). -/
structure Claims where
  audience : Option String
  expire_at : Option Nat
  issued_at : Nat
  issuer : Option String
  not_before : Option Nat
  subject : String
  deriving DecidableEq

/-- Token errors of `TokenManager::decode`. -/
inductive JwtError where
  | TokenExpired (expire_at : Nat)
  | TooEarly (not_before : Nat)
  | JWT
  deriving DecidableEq

/-- Models `TokenManager::decode`: `verify` models the external
`jsonwebtoken::decode` call (signature and algorithm checking); on
success the expiry claim is checked first, then the not-before claim. -/
def tm_decode (verify : String → Option Claims) (token : String)
    (now : Nat) : Except JwtError Claims :=
  match verify token with
  | none => Except.error JwtError.JWT
  | some claims =>
    match claims.expire_at with
    | some expire_at =>
      if expire_at < now then Except.error (JwtError.TokenExpired expire_at)
      else
        match claims.not_before with
        | some not_before =>
          if not_before > now then
            Except.error (JwtError.TooEarly not_before)
          else Except.ok claims
        | none => Except.ok claims
    | none =>
      match claims.not_before with
      | some not_before =>
        if not_before > now then
          Except.error (JwtError.TooEarly not_before)
        else Except.ok claims
      | none => Except.ok claims

/-! ## Discovery websocket references (discover/src/websocket.rs) -/

/-- Models `Client::send`: stamps the current value of the atomic reference on
the frame and increments it (`fetch_add(1)` returns the old value). -/
def client_send (reference : Nat) : Nat × Nat :=
  (reference + 1, reference)

/-- The refs stamped on `k` successive `Client::send` frames starting
from counter value `s`. -/
def send_refs : Nat → Nat → List Nat
  | _, 0 => []
  | s, k + 1 => (client_send s).2 :: send_refs (client_send s).1 k

/-- The ref of the Phoenix join frame that `WebSocket::connect` writes
directly on the socket before any `Client::send`: literally
`PhxMessage::default().r#ref(0)`. -/
def connect_join_ref : Nat := 0

/-- The refs of all frames written to the socket of one client: the
connect-time join frame followed by `k` frames sent through
`Client::send` (the counter starts at 0 from `WebSocket::new`). -/
def socket_refs (k : Nat) : List Nat :=
  connect_join_ref :: send_refs 0 k

/-! ## Account singleton (p2p/src/lib.rs) -/

/-- The process-wide vodozemac account: created fresh or restored from a
pickle (the pickle body is opaque). -/
inductive Account where
  | new
  | from_pickle (p : String)
  deriving DecidableEq

/-- Models `get_account`: `OnceLock::get_or_init` with `Account::new`, on the
cell state modelled as `Option Account`.  Returns the account and the
new cell state. -/
def get_account (cell : Option Account) : Account × Option Account :=
  match cell with
  | some a => (a, some a)
  | none => (Account.new, some Account.new)

/-- Models `restore_account`: parse the pickle json (`parse` models
`serde_json::from_str`, `none` the `Err` branch which propagates), then
`get_or_init` with `Account::from_pickle` — a no-op when the cell is
already initialised. -/
def restore_account (parse : String → Option String)
    (cell : Option Account) (json : String) :
    Except Unit (Option Account) :=
  match parse json with
  | none => Except.error ()
  | some pickle =>
    match cell with
    | some a => Except.ok (some a)
    | none => Except.ok (some (Account.from_pickle pickle))

/-! ## Theorems -/

/-- Dropping leading zeros of a zero block reaches the suffix. -/
theorem dropWhile_zero_replicate (k : Nat) (l : List Nat) :
    List.dropWhile (fun b => b == 0) (List.replicate k 0 ++ l) =
      List.dropWhile (fun b => b == 0) l := by
  induction k with
  | zero => simp
  | succ k ih => simp [List.replicate_succ, List.dropWhile_cons, ih]

/-- C1: for every payload x, unpadding the padded form of x returns x
exactly: unpad (pad x) = x, where pad appends the 0x80 terminator and
zero-fill to the bucket size and unpad strips trailing zeros and exactly
one 0x80. -/
theorem C1_padding_round_trip (x : List Nat) : unpad (pad x) = x := by
  have hrev : (pad x).reverse =
      List.replicate (bucket x.length - (x.length + 1)) 0 ++
        (0x80 :: x.reverse) := by
    simp [pad, List.reverse_append, List.reverse_replicate]
  rw [unpad, hrev, dropWhile_zero_replicate]
  simp [List.dropWhile_cons]

/-- C5: an inbound frame that decodes to a non-DHKey event is forwarded
only when it was decrypted by an installed ratchet session (so with no
ratchet installed it is dropped), while a decoded DHKey event is fed to
the X3DH negotiator whether or not the frame was encrypted. -/
theorem C5_channel_dispatch (c : Crypto) (session : Option OlmSession)
    (msg : List Nat) :
    (∀ e, on_message c session msg = ChannelAction.forwarded e →
      ∃ s d, session = some s ∧ s.decrypt msg = some d ∧
        c.decode (unpad d) = some e)
    ∧ (∀ x, msg.length ≤ MAX_MESSAGE_SIZE_IN_BYTES →
        msg.isEmpty = false →
        c.decode (unpad msg) = some (Event.DHKey x) →
        on_message c none msg = ChannelAction.negotiated x)
    ∧ (∀ s d x, session = some s →
        msg.length ≤ MAX_MESSAGE_SIZE_IN_BYTES →
        s.decrypt msg = some d → d.isEmpty = false →
        c.decode (unpad d) = some (Event.DHKey x) →
        on_message c session msg = ChannelAction.negotiated x) := by
  refine ⟨?_, ?_, ?_⟩
  · intro e h
    unfold on_message at h
    by_cases hlen : msg.length > MAX_MESSAGE_SIZE_IN_BYTES
    · simp [hlen] at h
    · rw [if_neg hlen] at h
      cases session with
      | none =>
        simp only at h
        split at h
        · exact absurd h (by simp)
        · split at h
          · exact absurd h (by simp)
          · exact absurd h (by simp)
          · simp at h
      | some s =>
        cases hd : s.decrypt msg with
        | none => simp [hd] at h
        | some d =>
          simp only [hd] at h
          split at h
          · exact absurd h (by simp)
          · split at h
            · exact absurd h (by simp)
            · exact absurd h (by simp)
            · simp at h
              subst h
              exact ⟨s, d, rfl, hd, by assumption⟩
  · intro x hlen hne hdec
    simp [on_message, Nat.not_lt.mpr hlen, hne, hdec]
  · intro s d x hs hlen hd hne hdec
    subst hs
    simp [on_message, Nat.not_lt.mpr hlen, hd, hne, hdec]

/-- Concrete crypto oracle used by the witnesses: decoding recognises the
byte string `[2]` as a DHKey event, everything else fails. -/
def cW : Crypto where
  outbound := fun _ _ => { decrypt := fun _ => none, pickled := some "out" }
  inbound := fun _ _ => some { decrypt := fun _ => none, pickled := some "in" }
  encryptEmpty := OlmMessage.PreKey [9]
  derivePeerId := fun _ => "peer"
  decode := fun d =>
    if d = [2] then some (Event.DHKey ⟨[2], some [3], none⟩) else none
  encode := fun _ => some [7]

/-- Concrete ratchet session whose decryption always yields the padded
byte string `[2, 0x80]`. -/
def sW : OlmSession where
  decrypt := fun _ => some [2, 0x80]
  pickled := some "sess"

/-- Witness for C5: a one-byte encrypted frame decrypts to `[2, 0x80]`,
unpads to `[2]`, decodes to a DHKey event and is fed to the negotiator. -/
theorem C5_channel_dispatch_witness :
    on_message cW (some sW) [1] =
      ChannelAction.negotiated ⟨[2], some [3], none⟩ :=
  (C5_channel_dispatch cW (some sW) [1]).2.2 sW [2, 0x80]
    ⟨[2], some [3], none⟩ rfl (by decide) rfl (by decide) (by rfl)

/-- C4 (amended): a received DHKey event in which the otk and prekey
fields are both absent makes no change to the peer state and sends
nothing in reply; a DHKey with both fields present is not dropped but is
processed by the otk branch, which installs an outbound session. -/
theorem C4_dhkey_drop (c : Crypto) (identity : Key) (st : PeerState)
    (x : X3DH) :
    (x.otk = none → x.prekey = none →
      handle_dhkey_event c identity st x = (st, []))
    ∧ (∀ otk, x.otk = some otk →
        (handle_dhkey_event c identity st x).1.session =
          some (c.outbound x.public_key otk)) := by
  constructor
  · intro hotk hpre
    simp [handle_dhkey_event, hotk, hpre]
  · intro otk hotk
    cases hmsg : c.encryptEmpty with
    | PreKey pk =>
      cases henc : c.encode (Event.DHKey ⟨identity, none, some pk⟩) with
      | some bytes => simp [handle_dhkey_event, hotk, hmsg, henc]
      | none => simp [handle_dhkey_event, hotk, hmsg, henc]
    | Normal b => simp [handle_dhkey_event, hotk, hmsg]

/-- Witness for C4: a DHKey with neither otk nor prekey leaves the state
untouched and sends nothing. -/
theorem C4_dhkey_drop_witness :
    handle_dhkey_event cW [1] { session := none, peer_id := none }
      { public_key := [2], otk := none, prekey := none } =
      ({ session := none, peer_id := none }, []) :=
  (C4_dhkey_drop cW [1] { session := none, peer_id := none }
    { public_key := [2], otk := none, prekey := none }).1 rfl rfl

/-- Counterexample for C4: a DHKey with both otk and prekey present is
claimed to leave the peer state unchanged, but the handler takes the otk
branch and installs a ratchet session (and a peer id). -/
theorem C4_dhkey_drop_counterexample :
    ({ session := none, peer_id := none } : PeerState).session.isSome = false
    ∧ ((handle_dhkey_event cW [1] { session := none, peer_id := none }
        { public_key := [2], otk := some [3], prekey := some [4] }).1.session).isSome
        = true
    ∧ (handle_dhkey_event cW [1] { session := none, peer_id := none }
        { public_key := [2], otk := some [3], prekey := some [4] }).1.peer_id
        = some "peer" := by
  refine ⟨rfl, rfl, rfl⟩

/-- C3: on data-channel open, the endpoint whose transport went through
`connect` (the SDP answerer, is_initiator = false) emits the first X3DH
key message carrying its identity public key and a freshly generated
one-time key, while the endpoint that went through `create_offer`
(is_initiator = true) emits nothing. -/
theorem C3_x3dh_roles (t : Transport) (a : KeyAccount) (sdpO sdpA : String) :
    triple_diffie_hellman (Transport.create_offer t sdpO) a = none
    ∧ triple_diffie_hellman (Transport.connect t sdpA) a =
        some { public_key := a.identity, otk := a.freshOtk } := by
  constructor <;>
    simp [triple_diffie_hellman, Transport.create_offer, Transport.connect]

/-- Evaluation of the four-iteration retry loop of `WebRTCManager::send`
as a decision tree on the attempt outcomes. -/
theorem send_go_eval (ok : Nat → Bool) :
    send_go ok 4 0 =
      if ok 0 then (Except.ok (), 1, [])
      else if ok 1 then (Except.ok (), 2, [5])
      else if ok 2 then (Except.ok (), 3, [5, 10])
      else if ok 3 then (Except.ok (), 4, [5, 10, 15])
      else (Except.error SendError.MessageSendFailed, 4, [5, 10, 15]) := by
  cases h0 : ok 0 <;> cases h1 : ok 1 <;> cases h2 : ok 2 <;>
    cases h3 : ok 3 <;>
      simp [send_go, MAX_ATTEMPTS, h0, h1, h2, h3]

/-- A failure predicate on the four attempt indices is exactly a
conjunction over 0, 1, 2, 3. -/
theorem forall_lt_four (ok : Nat → Bool) :
    (∀ n, n < 4 → ok n = false) ↔
      ok 0 = false ∧ ok 1 = false ∧ ok 2 = false ∧ ok 3 = false := by
  constructor
  · intro h
    exact ⟨h 0 (by omega), h 1 (by omega), h 2 (by omega), h 3 (by omega)⟩
  · rintro ⟨a, b, c, d⟩ n hn
    interval_cases n <;> assumption

/-- C6: with an open data channel the send operation attempts delivery at
most 4 times, sleeping 5·n seconds before retry attempt n (n = 1..3),
returns MessageSendFailed exactly when all 4 attempts fail, and returns
Ok as soon as one attempt succeeds (performing only the sleeps before
that attempt). -/
theorem C6_send_retry (ok : Nat → Bool) :
    (webrtc_send true ok).2.1 ≤ 4
    ∧ ((webrtc_send true ok).1 = Except.error SendError.MessageSendFailed ↔
        ∀ n, n < 4 → ok n = false)
    ∧ (∀ n, n < 4 → (∀ m, m < n → ok m = false) → ok n = true →
        webrtc_send true ok =
          (Except.ok (), n + 1, (List.range' 1 n).map (fun i => 5 * i))) := by
  refine ⟨?_, ?_, ?_⟩
  · rw [webrtc_send]
    simp only [if_pos rfl, MAX_ATTEMPTS, send_go_eval]
    cases h0 : ok 0 <;> cases h1 : ok 1 <;> cases h2 : ok 2 <;>
      cases h3 : ok 3 <;> simp
  · rw [webrtc_send]
    simp only [if_pos rfl, MAX_ATTEMPTS, send_go_eval, forall_lt_four]
    cases h0 : ok 0 <;> cases h1 : ok 1 <;> cases h2 : ok 2 <;>
      cases h3 : ok 3 <;> simp
  · intro n hn hprev hok
    rw [webrtc_send]
    simp only [if_pos rfl, MAX_ATTEMPTS, send_go_eval]
    interval_cases n
    · simp [hok, List.range']
    · have e0 := hprev 0 (by omega)
      simp [e0, hok, List.range']
    · have e0 := hprev 0 (by omega)
      have e1 := hprev 1 (by omega)
      simp [e0, e1, hok, List.range']
    · have e0 := hprev 0 (by omega)
      have e1 := hprev 1 (by omega)
      have e2 := hprev 2 (by omega)
      simp [e0, e1, e2, hok, List.range']

/-- Attempt oracle for the C6 witness: only the third attempt succeeds. -/
def okW : Nat → Bool := fun n => n == 2

/-- Witness for C6: with success first arriving on attempt index 2, the
send returns Ok after 3 attempts having slept 5 and 10 seconds. -/
theorem C6_send_retry_witness :
    webrtc_send true okW = (Except.ok (), 3, [5, 10]) := by
  have h := (C6_send_retry okW).2.2 2 (by omega)
    (by intro m hm; interval_cases m <;> rfl) rfl
  simpa [List.range'] using h

/-- Lookup after remove: the removed key is gone, others are kept. -/
theorem mapLookup_mapRemove (k id : String) (m : List (String × Conn)) :
    mapLookup k (mapRemove id m) =
      if k = id then none else mapLookup k m := by
  induction m with
  | nil => simp [mapLookup, mapRemove]
  | cons hd tl ih =>
    obtain ⟨a, v⟩ := hd
    simp only [mapRemove]
    by_cases haid : a = id
    · simp only [if_pos haid]
      rw [ih]
      by_cases hk : k = id
      · simp [hk]
      · have hna : ¬a = k := fun h => hk (by rw [← h]; exact haid)
        simp [mapLookup, hk, hna]
    · simp only [if_neg haid, mapLookup]
      by_cases hak : a = k
      · have hkid : ¬k = id := fun h => haid (by rw [hak, h])
        simp [hak, hkid]
      · simp [hak, ih]

/-- Lookup after insert: the inserted binding wins, others are kept. -/
theorem mapLookup_mapInsert (k id : String) (v : Conn)
    (m : List (String × Conn)) :
    mapLookup k (mapInsert id v m) =
      if id = k then some v else mapLookup k m := by
  simp only [mapInsert, mapLookup]
  by_cases h : id = k
  · simp [h]
  · have hki : ¬k = id := fun hh => h hh.symm
    simp [h, mapLookup_mapRemove, hki]

/-- C2: an inbound answer whose session id is not a key of the queued
table fails with MissingSessionId leaving both peer tables unchanged;
when applying the remote description fails, the error is surfaced and
the entry is still present in the queued table (which is unchanged as a
map), the established table untouched. -/
theorem C2_incoming_answer_errors (t : TState) (s : SDPAnswer)
    (id : String) (hid : s.sessionId = some id) :
    (mapLookup id t.queued_connection = none →
      incoming_answer t s = (t, Except.error TError.MissingSessionId))
    ∧ (∀ conn, mapLookup id t.queued_connection = some conn →
        s.remoteOk = false →
        (incoming_answer t s).2 = Except.error TError.WebRTC
        ∧ (∀ k, mapLookup k (incoming_answer t s).1.queued_connection =
            mapLookup k t.queued_connection)
        ∧ (incoming_answer t s).1.peers_connection =
            t.peers_connection) := by
  constructor
  · intro hmiss
    simp [incoming_answer, hid, hmiss]
  · intro conn hconn hfail
    refine ⟨?_, ?_, ?_⟩
    · simp [incoming_answer, hid, hconn, hfail]
    · intro k
      simp only [incoming_answer, hid, hconn, hfail, Bool.false_eq_true,
        if_false]
      rw [mapLookup_mapInsert, mapLookup_mapRemove]
      by_cases hk : id = k
      · subst hk
        simp [hconn]
      · have hki : ¬k = id := fun h => hk h.symm
        simp [hk, hki]
    · simp [incoming_answer, hid, hconn, hfail]

/-- Queued connection used by the signalling witnesses. -/
def connW : Conn := { peer_id := none, session := none }

/-- Signalling state with one queued entry under session id `sid`. -/
def tW : TState :=
  { queued_connection := [("sid", connW)], peers_connection := [] }

/-- Witness for C2: on an answer whose remote description fails to apply,
the error surfaces and the queued entry is still found afterwards. -/
theorem C2_incoming_answer_errors_witness :
    (incoming_answer tW { sessionId := some "sid", remoteOk := false }).2 =
      Except.error TError.WebRTC
    ∧ mapLookup "sid"
        (incoming_answer tW
          { sessionId := some "sid", remoteOk := false }).1.queued_connection =
      mapLookup "sid" tW.queued_connection := by
  have h := (C2_incoming_answer_errors tW
    { sessionId := some "sid", remoteOk := false } "sid" rfl).2 connW
    (by rfl) rfl
  exact ⟨h.1, h.2.1 "sid"⟩

/-- C10: an answer processed successfully while the transport peer id is
still unset (X3DH not yet completed, so no ratchet either) completes
with peer_id equal to the empty string and session none, inserts the
connection into the established table under the empty-string key, and a
later such successful answer overwrites that binding. -/
theorem C10_empty_peer_id (t : TState) (s : SDPAnswer) (id : String)
    (conn : Conn) (hid : s.sessionId = some id)
    (hq : mapLookup id t.queued_connection = some conn)
    (hpid : conn.peer_id = none) (hsess : conn.session = none)
    (hok : s.remoteOk = true) :
    (incoming_answer t s).2 =
      Except.ok { peer_id := "", session := none }
    ∧ mapLookup "" (incoming_answer t s).1.peers_connection = some conn
    ∧ (∀ t2 s2 id2 conn2, s2.sessionId = some id2 →
        mapLookup id2 t2.queued_connection = some conn2 →
        conn2.peer_id = none → s2.remoteOk = true →
        mapLookup "" (incoming_answer t2 s2).1.peers_connection =
          some conn2) := by
  refine ⟨?_, ?_, ?_⟩
  · simp [incoming_answer, hid, hq, hok, hpid, hsess]
  · simp [incoming_answer, hid, hq, hok, hpid, mapLookup_mapInsert]
  · intro t2 s2 id2 conn2 hid2 hq2 hpid2 hok2
    simp [incoming_answer, hid2, hq2, hok2, hpid2, mapLookup_mapInsert]

/-- Witness for C10: completing the queued answer before X3DH yields the
empty peer id, no pickled session, and the empty-string binding. -/
theorem C10_empty_peer_id_witness :
    (incoming_answer tW { sessionId := some "sid", remoteOk := true }).2 =
      Except.ok { peer_id := "", session := none }
    ∧ mapLookup ""
        (incoming_answer tW
          { sessionId := some "sid", remoteOk := true }).1.peers_connection =
      some connW := by
  have h := C10_empty_peer_id tW
    { sessionId := some "sid", remoteOk := true } "sid" connW rfl (by rfl)
    rfl rfl rfl
  exact ⟨h.1, h.2.1⟩

/-- C7 (amended): for a JWT whose signature verifies, decode returns
TokenExpired (expire_at) exactly when the exp claim is present and
strictly below now; it returns TooEarly (not_before) exactly when the
nbf claim is present and strictly above now and the expiry check did not
already fail (exp is checked first); otherwise it returns the claims. -/
theorem C7_decode_time_checks (verify : String → Option Claims)
    (token : String) (now : Nat) (claims : Claims)
    (h : verify token = some claims) :
    (∀ e, tm_decode verify token now =
        Except.error (JwtError.TokenExpired e) ↔
      claims.expire_at = some e ∧ e < now)
    ∧ (∀ b, tm_decode verify token now =
        Except.error (JwtError.TooEarly b) ↔
      claims.not_before = some b ∧ now < b ∧
        ∀ e, claims.expire_at = some e → ¬e < now)
    ∧ ((∀ e, claims.expire_at = some e → ¬e < now) →
       (∀ b, claims.not_before = some b → ¬now < b) →
       tm_decode verify token now = Except.ok claims) := by
  refine ⟨fun e => ?_, fun b => ?_, fun hA hB => ?_⟩
  · rcases hexp : claims.expire_at with _ | e0
    · rcases hnbf : claims.not_before with _ | b0
      · simp [tm_decode, h, hexp, hnbf]
      · by_cases hb : now < b0 <;> simp [tm_decode, h, hexp, hnbf, hb]
    · by_cases he : e0 < now
      · simp [tm_decode, h, hexp, he]
        omega
      · rcases hnbf : claims.not_before with _ | b0
        · simp [tm_decode, h, hexp, he, hnbf]
          omega
        · by_cases hb : now < b0 <;>
            simp [tm_decode, h, hexp, he, hnbf, hb] <;> omega
  · rcases hexp : claims.expire_at with _ | e0
    · rcases hnbf : claims.not_before with _ | b0
      · simp [tm_decode, h, hexp, hnbf]
      · by_cases hb : now < b0 <;>
          simp [tm_decode, h, hexp, hnbf, hb] <;> omega
    · by_cases he : e0 < now
      · simp [tm_decode, h, hexp, he]
      · rcases hnbf : claims.not_before with _ | b0
        · simp [tm_decode, h, hexp, he, hnbf]
        · by_cases hb : now < b0 <;>
            simp [tm_decode, h, hexp, he, hnbf, hb] <;> omega
  · rcases hexp : claims.expire_at with _ | e0 <;>
      rcases hnbf : claims.not_before with _ | b0
    · simp [tm_decode, h, hexp, hnbf]
    · have hb := hB b0 hnbf
      simp [tm_decode, h, hexp, hnbf, hb]
    · have he := hA e0 hexp
      simp [tm_decode, h, hexp, hnbf, he]
    · have he := hA e0 hexp
      have hb := hB b0 hnbf
      simp [tm_decode, h, hexp, hnbf, he, hb]

/-- Claims fixture for C7: already expired (exp = 0) and not yet valid
(nbf = 10). -/
def claimsX : Claims :=
  { audience := none, expire_at := some 0, issued_at := 0, issuer := none
    not_before := some 10, subject := "u" }

/-- Verification oracle accepting every token with the C7 fixture. -/
def verifyX : String → Option Claims := fun _ => some claimsX

/-- Counterexample for C7: at now = 5 the nbf claim (10) is strictly
above now, yet decode returns TokenExpired 0, not TooEarly 10 — the
expiry check preempts the not-before check. -/
theorem C7_decode_time_checks_counterexample :
    claimsX.not_before = some 10 ∧ (5 : Nat) < 10
    ∧ tm_decode verifyX "token" 5 = Except.error (JwtError.TokenExpired 0)
    ∧ tm_decode verifyX "token" 5 ≠ Except.error (JwtError.TooEarly 10) := by
  refine ⟨rfl, by omega, rfl, ?_⟩
  intro hcontra
  rw [show tm_decode verifyX "token" 5 =
    Except.error (JwtError.TokenExpired 0) from rfl] at hcontra
  simp at hcontra

/-- Witness for C7: the fixture token decodes to TokenExpired 0 via the
amended characterisation. -/
theorem C7_decode_time_checks_witness :
    tm_decode verifyX "token" 5 = Except.error (JwtError.TokenExpired 0) :=
  ((C7_decode_time_checks verifyX "token" 5 claimsX rfl).1 0).mpr
    ⟨rfl, by omega⟩

/-- The refs stamped by successive `Client::send` calls starting from
counter value s are s, s+1, s+2, … -/
theorem send_refs_eq_range' (s k : Nat) :
    send_refs s k = List.range' s k := by
  induction k generalizing s with
  | zero => simp [send_refs]
  | succ k ih => simp [send_refs, client_send, List.range', ih]

/-- C8 (amended): the refs stamped on the frames a client sends through
`Client::send` are strictly increasing (each later frame carries a
strictly larger ref than every earlier one); over the whole socket
sequence, which starts with the connect-time join frame at ref 0, the
refs are only non-decreasing, the join frame sharing ref 0 with the
first `Client::send` frame. -/
theorem C8_refs_monotonic (s k : Nat) :
    List.Pairwise (fun a b => a < b) (send_refs s k)
    ∧ List.Chain' (fun a b => a ≤ b) (socket_refs k) := by
  constructor
  · rw [send_refs_eq_range']
    have h := List.pairwise_lt_range' s k 1 (by omega)
    exact h.imp (fun hab => by omega)
  · rw [socket_refs, send_refs_eq_range']
    cases k with
    | zero => simp
    | succ k =>
      rw [List.range']
      refine List.Chain'.cons (by rfl) ?_
      have h := List.pairwise_lt_range' 0 (k + 1) 1 (by omega)
      rw [List.range'] at h
      exact (List.Pairwise.chain' h).imp (fun hab => by omega)

/-- Counterexample for C8: the join frame written during connect carries
ref 0 and the first `Client::send` frame also carries ref 0, so the refs
over all frames written to the socket are not strictly increasing. -/
theorem C8_refs_monotonic_counterexample :
    socket_refs 1 = [0, 0]
    ∧ ¬List.Pairwise (fun a b => a < b) (socket_refs 1) := by
  refine ⟨rfl, ?_⟩
  intro hcontra
  rw [show socket_refs 1 = [0, 0] from rfl] at hcontra
  simp at hcontra

/-- C9: when the account singleton is already initialised,
restore_account still succeeds if the pickle parses, but keeps the
existing account: the supplied pickle is discarded and get_account on
the resulting cell returns the old account. -/
theorem C9_restore_keeps_existing (parse : String → Option String)
    (a : Account) (json p : String) (hp : parse json = some p) :
    restore_account parse (some a) json = Except.ok (some a)
    ∧ ∀ cell, restore_account parse (some a) json = Except.ok cell →
        (get_account cell).1 = a := by
  constructor
  · simp [restore_account, hp]
  · intro cell hcell
    simp [restore_account, hp] at hcell
    rw [← hcell]
    simp [get_account]

/-- Witness for C9: restoring over an initialised cell returns Ok but
leaves the fresh account in place. -/
theorem C9_restore_keeps_existing_witness :
    restore_account (fun js => some js) (some Account.new) "pickle" =
      Except.ok (some Account.new)
    ∧ (get_account (some Account.new)).1 = Account.new := by
  have h := C9_restore_keeps_existing (fun js => some js) Account.new
    "pickle" "pickle" rfl
  exact ⟨h.1, h.2 (some Account.new) h.1⟩

end Turms
